import Mathlib

/-!
Verification of the MrRSS feed-fetching core: a shallow embedding in Lean 4 of
the fetch orchestrator (`Fetcher.FetchAll` / `Fetcher.FetchFeed`), the script
executor (`ScriptExecutor.ExecuteScript`), and the path handling from
`internal/utils`, together with proofs of the specification's claims about
them.
-/

namespace MrRSS

/-! ## Model of Go `path/filepath` (Unix rules) and `strings.HasPrefix`

`ExecuteScript` builds `fullPath := filepath.Clean(filepath.Join(scriptsDir,
scriptPath))` and then checks `strings.HasPrefix(fullPath,
filepath.Clean(scriptsDir))`.  We model the lexical path functions over the
character lists underlying Lean strings (paths here are ASCII, where Go's
byte-wise operations and character-wise operations agree). -/

/-- Character-list version of Go `strings.HasPrefix`: `charsStartWith p s`
is true when `p` is a prefix of `s`. -/
def charsStartWith : List Char → List Char → Bool
  | [], _ => true
  | _ :: _, [] => false
  | p :: ps, c :: cs => p = c && charsStartWith ps cs

/-- Go `strings.HasPrefix s pre`. -/
def goHasPre (s pre : String) : Bool := charsStartWith pre.toList s.toList

/-- Split a character list at every `'/'` (used by the `Clean` model). -/
def splitSlash : List Char → List (List Char)
  | [] => [[]]
  | c :: rest =>
    if c = '/' then [] :: splitSlash rest
    else
      match splitSlash rest with
      | [] => [[c]]
      | g :: gs => (c :: g) :: gs

/-- The element-processing loop of Go `filepath.Clean`: empty and `"."`
elements are dropped, `".."` pops a previous real element when one exists, is
dropped at the root of a rooted path, and is kept (stacked) on a relative
path.  The stack is kept in reverse order (head = most recent element). -/
def cleanStack (rooted : Bool) : List String → List String → List String
  | stack, [] => stack
  | stack, e :: rest =>
    if e = "" ∨ e = "." then cleanStack rooted stack rest
    else if e = ".." then
      match stack with
      | top :: stack' =>
        if top = ".." then cleanStack rooted (".." :: top :: stack') rest
        else cleanStack rooted stack' rest
      | [] => if rooted then cleanStack rooted [] rest else cleanStack rooted [".."] rest
    else cleanStack rooted (e :: stack) rest

/-- Join path components with `'/'`. -/
def joinComponents : List String → String
  | [] => ""
  | [x] => x
  | x :: y :: xs => x ++ "/" ++ joinComponents (y :: xs)

/-- Model of Go `filepath.Clean` on Unix: shortest lexically-equivalent path
(collapse repeated separators, drop `.`, resolve `..` lexically, `"."` for an
empty result). -/
def filepathClean (p : String) : String :=
  if p = "" then "."
  else
    let rooted : Bool :=
      match p.toList with
      | '/' :: _ => true
      | _ => false
    let comps := (splitSlash p.toList).map (fun l => String.mk l)
    let body := joinComponents (cleanStack rooted [] comps).reverse
    if rooted then
      if body = "" then "/" else "/" ++ body
    else
      if body = "" then "." else body

/-- Model of Go `filepath.Join` restricted to two arguments: empty elements
are skipped and the result is `Clean`ed. -/
def filepathJoin (a b : String) : String :=
  if a = "" then (if b = "" then "" else filepathClean b)
  else filepathClean (a ++ "/" ++ b)

/-- The containment check performed inline by `ScriptExecutor.ExecuteScript`
(html.go lines 104-111): `strings.HasPrefix(Clean(Join(dir, p)), Clean(dir))`.
The extra `Clean` after `Join` mirrors the source, which cleans the joined
path a second time. -/
def scriptPathAccepted (scriptsDir scriptPath : String) : Bool :=
  let fullPath := filepathClean (filepathJoin scriptsDir scriptPath)
  goHasPre fullPath (filepathClean scriptsDir)

/-- Semantic containment: the resolved path is the scripts root itself or
lies strictly below it (root followed by a separator). This is what "resolves
inside the scripts root" means for a file path. -/
def resolvesInsideRoot (scriptsDir scriptPath : String) : Bool :=
  let fullPath := filepathClean (filepathJoin scriptsDir scriptPath)
  let root := filepathClean scriptsDir
  fullPath = root || goHasPre fullPath (root ++ "/")

/-! ## Data model

The gofeed types and the repository's `models` package, restricted to the
fields the fetch core reads or writes.  `time.Time` values are modelled as
natural-number timestamps. -/

/-- gofeed `Image` (only `URL` is read). -/
structure FeedImage where
  url : String
deriving DecidableEq

/-- gofeed `Enclosure` (only `URL` and `Type` are read). -/
structure Enclosure where
  url : String
  type : String
deriving DecidableEq

/-- gofeed `Item`, restricted to the fields `FetchFeed` reads. -/
structure Item where
  title : String
  link : String
  content : String
  description : String
  image : Option FeedImage
  enclosures : List Enclosure
  publishedParsed : Option Nat
deriving DecidableEq

/-- gofeed `Feed` (the parsed feed document), restricted to read fields. -/
structure ParsedFeed where
  title : String
  link : String
  description : String
  image : Option FeedImage
  items : List Item
deriving DecidableEq

/-- `models.Feed`: a subscription, restricted to the fields the fetch core
reads or writes. -/
structure Feed where
  id : Nat
  title : String
  url : String
  link : String
  imageURL : String
  scriptPath : String
deriving DecidableEq

/-- `models.Article` as built by `FetchFeed`. -/
structure Article where
  feedID : Nat
  title : String
  url : String
  imageURL : String
  content : String
  publishedAt : Nat
  translatedTitle : String
deriving DecidableEq

/-! ## The image regex

`FetchFeed` falls back to `regexp.MustCompile("<img[^>]+src=\x22([^\x22>]+)\x22")`
and `FindStringSubmatch`.  Go's regexp has Perl-style leftmost-first
semantics: the match starts at the earliest possible position and, at that
position, the greedy `[^>]+` takes the longest extent that still lets the
rest of the pattern match.  We implement exactly that search. -/

/-- Length of the maximal run of non-`'>'` characters at the head. -/
def nonGtRun : List Char → Nat
  | [] => 0
  | c :: rest => if c = '>' then 0 else nonGtRun rest + 1

/-- Does the text begin with the literal `src="`? -/
def startsWithSrcQ : List Char → Bool
  | 's' :: 'r' :: 'c' :: '=' :: '"' :: _ => true
  | _ => false

/-- Parse the capture group `([^">]+)` followed by the closing `'"'`: the
maximal run of characters that are neither `'"'` nor `'>'`, which must be
non-empty and immediately followed by `'"'`. -/
def captureAfter (u : List Char) : Option (List Char) :=
  let cap := u.takeWhile (fun c => !(c == '"' || c == '>'))
  match cap, u.drop cap.length with
  | [], _ => none
  | _ :: _, '"' :: _ => some cap
  | _ :: _, _ => none

/-- Backtracking over the extent of the greedy `[^>]+`: try width `n` first,
then shrink.  `t` is the text following the literal `<img`. -/
def tryWidth : Nat → List Char → Option (List Char)
  | 0, _ => none
  | n + 1, t =>
    if startsWithSrcQ (t.drop (n + 1)) then
      match captureAfter (t.drop (n + 1 + 5)) with
      | some cap => some cap
      | none => tryWidth n t
    else tryWidth n t

/-- Match the tail of the pattern at a position where `<img` just matched. -/
def matchImgAt (t : List Char) : Option (List Char) :=
  tryWidth (nonGtRun t) t

/-- Leftmost search for the whole pattern. -/
def findImgSrcAux : List Char → Option (List Char)
  | [] => none
  | '<' :: 'i' :: 'm' :: 'g' :: t =>
    (match matchImgAt t with
     | some cap => some cap
     | none => findImgSrcAux ('i' :: 'm' :: 'g' :: t))
  | _ :: rest => findImgSrcAux rest

/-- The source's `re.FindStringSubmatch(content)` restricted to the capture
group: first `<img ... src="..."` occurrence, `none` when there is no match. -/
def findImgSrc (s : String) : Option String :=
  (findImgSrcAux s.toList).map String.mk

/-! ## Image resolution (FetchFeed lines 193-211) -/

/-- The enclosure branch of the source: `len(item.Enclosures) > 0 &&
item.Enclosures[0].Type == "image/jpeg"` selects the first enclosure's URL,
anything else leaves the image URL empty. -/
def firstEnclosureImage (item : Item) : String :=
  match item.enclosures with
  | e :: _ => if e.type = "image/jpeg" then e.url else ""
  | [] => ""

/-- The image-resolution chain exactly as `FetchFeed` computes it: structured
image field, else the `image/jpeg` first-enclosure check, and a regex scan of
content-falling-back-to-description whenever the result so far is empty. -/
def codeImageURL (item : Item) : String :=
  let imageURL :=
    match item.image with
    | some img => img.url
    | none => firstEnclosureImage item
  if imageURL = "" then
    let content := if item.content = "" then item.description else item.content
    match findImgSrc content with
    | some u => u
    | none => ""
  else imageURL

/-- The resolution order as the specification words it: (1) the structured
image field if present; (2) otherwise the first enclosure whose declared type
is an image MIME type; (3) otherwise the regex scan of
content-then-description; (4) otherwise empty. -/
def specImageOrder (item : Item) : String :=
  match item.image with
  | some img => img.url
  | none =>
    match item.enclosures.find? (fun e => goHasPre e.type "image/") with
    | some e => e.url
    | none =>
      match findImgSrc (if item.content = "" then item.description else item.content) with
      | some u => u
      | none => ""

/-- The amended resolution order: (1) the structured image field's URL when
the field is present; (2) otherwise the first enclosure's URL when that
enclosure's declared type is exactly `image/jpeg`; (3) whenever the URL
chosen so far is empty, the first regex `<img src>` occurrence in the
content, falling back to the description when the content is empty; (4) the
empty string otherwise. -/
def specImageOrderAmended (item : Item) : String :=
  let structural : Option String := item.image.map FeedImage.url
  let enclosure : Option String :=
    item.enclosures.head?.bind (fun e => if e.type = "image/jpeg" then some e.url else none)
  let chosen := (structural.orElse (fun _ => enclosure)).getD ""
  if chosen = "" then
    (findImgSrc (if item.content = "" then item.description else item.content)).getD ""
  else chosen

/-! ## ScriptExecutor.ExecuteScript (html.go lines 103-178)

The OS-level pieces are oracles: `ScriptOutcome` is what `cmd.Run()` together
with the captured stderr buffer produced, and `parse` is the gofeed
`ParseString` collaborator.  Everything the function itself decides — the
containment check, the extension dispatch, the error-message construction —
is modelled directly.  The first component of the result records whether a
process was spawned (`cmd.Run` reached). -/

/-- Result of `cmd.Run()` plus the captured stderr buffer: normal exit with
captured stdout, or a launch/exit error with its message and stderr. -/
inductive ScriptOutcome
  | ok (stdout : String)
  | fail (errMsg : String) (stderr : String)
deriving DecidableEq

/-- Go `strings.ToLower(filepath.Ext(path))`: the suffix of the last path
element starting at its final dot, lowercased; empty when there is no dot. -/
def extLowerAux : List Char → List Char → List Char
  | _, [] => []
  | acc, c :: rest =>
    if c = '.' then c :: acc
    else if c = '/' then []
    else extLowerAux (c :: acc) rest

/-- `strings.ToLower(filepath.Ext(p))`. -/
def extLower (p : String) : String :=
  String.mk ((extLowerAux [] p.toList.reverse).map Char.toLower)

/-- `ScriptExecutor.ExecuteScript`, with a flag for `runtime.GOOS ==
"windows"`.  Returns (process spawned?, result). -/
def ExecuteScriptFull (isWindows : Bool) (scriptsDir scriptPath : String)
    (run : ScriptOutcome) (parse : String → Except String ParsedFeed) :
    Bool × Except String ParsedFeed :=
  if scriptPathAccepted scriptsDir scriptPath = false then
    (false, .error "invalid script path: script must be within scripts directory")
  else
    let fullPath := filepathClean (filepathJoin scriptsDir scriptPath)
    if extLower fullPath = ".sh" ∧ isWindows = true then
      (false, .error "shell scripts are not supported on Windows")
    else
      (true,
        match run with
        | .fail em se =>
          if se = "" then .error ("script execution failed: " ++ em)
          else .error ("script execution failed: " ++ em ++ ", stderr: " ++ se)
        | .ok stdout =>
          match parse stdout with
          | .error msg => .error ("failed to parse script output as feed: " ++ msg)
          | .ok pf => .ok pf)

/-- The result component of `ExecuteScript`. -/
def ExecuteScript (isWindows : Bool) (scriptsDir scriptPath : String)
    (run : ScriptOutcome) (parse : String → Except String ParsedFeed) :
    Except String ParsedFeed :=
  (ExecuteScriptFull isWindows scriptsDir scriptPath run parse).2

/-! ## Fetcher.FetchFeed (part_000 lines 139-266)

`FetchFeed` is modelled as a pure function from the subscription and an
environment of collaborator outcomes to the sequence of Store calls it
performs, in source order. -/

/-- A call into the Store made by `FetchFeed`. -/
inductive DBEvent
  | updateFeedError (id : Nat) (msg : String)
  | updateFeedImage (id : Nat) (url : String)
  | updateFeedLink (id : Nat) (url : String)
  | saveArticles (articles : List Article)
  | getArticles (feedId : Nat) (limit : Nat)
  | applyRules (articles : List Article)
deriving DecidableEq

/-- Outcomes of every external collaborator one `FetchFeed` call can touch:
the script executor, the URL parser, the settings store, the translator, the
wall clock, the cancellation context as observed at the pre-save check, and
the persistence and rule layers. -/
structure FetchEnv where
  executorPresent : Bool
  scriptResult : Except String ParsedFeed
  urlResult : Except String ParsedFeed
  translationEnabledSetting : String
  targetLang : String
  translatorPresent : Bool
  translate : String → String → Except String String
  now : Nat
  cancelledPreSave : Bool
  saveResult : Except String Unit
  recentArticles : Except String (List Article)

/-- Source resolution (lines 143-165): a non-empty `ScriptPath` routes
through the script executor (failing when it was never initialized),
otherwise through `ParseURLWithContext`. -/
def resolveSource (env : FetchEnv) (feed : Feed) : Except String ParsedFeed :=
  if feed.scriptPath ≠ "" then
    if env.executorPresent = false then .error "Script executor not initialized"
    else env.scriptResult
  else env.urlResult

/-- The article built from one raw entry (lines 187-236): wall-clock default
timestamp, the image chain, content preferring `Content` over `Description`,
and best-effort title translation. -/
def normalizeItem (env : FetchEnv) (feed : Feed) (item : Item) : Article :=
  let published :=
    match item.publishedParsed with
    | some t => t
    | none => env.now
  let translatedTitle :=
    if env.translationEnabledSetting = "true" ∧ env.translatorPresent = true then
      match env.translate item.title env.targetLang with
      | .ok t => t
      | .error _ => ""
    else ""
  { feedID := feed.id
    title := item.title
    url := item.link
    imageURL := codeImageURL item
    content := if item.content = "" then item.description else item.content
    publishedAt := published
    translatedTitle := translatedTitle }

/-- The sequence of Store calls of one `FetchFeed` run.  A resolution failure
records the error and returns; success clears the error, conditionally
updates the cached image and link, builds the articles, re-checks the
cancellation context, and only then saves, re-queries, and applies rules. -/
def FetchFeed (env : FetchEnv) (feed : Feed) : List DBEvent :=
  match resolveSource env feed with
  | .error msg => [DBEvent.updateFeedError feed.id msg]
  | .ok pf =>
    let clearErr := [DBEvent.updateFeedError feed.id ""]
    let imgEvents :=
      if feed.imageURL = "" then
        match pf.image with
        | some img => [DBEvent.updateFeedImage feed.id img.url]
        | none => []
      else []
    let linkEvents :=
      if feed.link = "" ∧ pf.link ≠ "" then [DBEvent.updateFeedLink feed.id pf.link]
      else []
    let articlesToSave := pf.items.map (normalizeItem env feed)
    let saveEvents :=
      if env.cancelledPreSave = true then []
      else if articlesToSave.length > 0 then
        DBEvent.saveArticles articlesToSave ::
          (match env.saveResult with
           | .error _ => []
           | .ok _ =>
             DBEvent.getArticles feed.id articlesToSave.length ::
               (match env.recentArticles with
                | .ok arts => if arts.length > 0 then [DBEvent.applyRules arts] else []
                | .error _ => []))
      else []
    clearErr ++ imgEvents ++ linkEvents ++ saveEvents

/-! ## Fetcher.FetchAll (part_000 lines 61-137)

The orchestrator is concurrent: one goroutine per subscription, admitted by a
buffered channel of capacity 5, progress shared under `f.mu`.  We model it as
a small-step transition system.  Every mutation of shared state in the source
happens under the mutex (or is a channel operation), so each such mutation is
one atomic step; the interleaving of steps is arbitrary. -/

/-- The `Progress` struct. -/
structure Progress where
  Total : Nat
  Current : Nat
  IsRunning : Bool
deriving DecidableEq

/-- The guarded prologue of `FetchAll` (lines 62-69), executed atomically
under `f.mu`: an already-running batch makes the call return immediately with
the state untouched; otherwise the running flag is set and `Current` reset.
The boolean records whether the batch started. -/
def fetchAllStart (p : Progress) : Progress × Bool :=
  if p.IsRunning = true then (p, false)
  else ({ p with IsRunning := true, Current := 0 }, true)

/-- Lifecycle of one per-subscription goroutine.  A slot of the capacity-5
channel is held from the `sem` send in the dispatch loop until the goroutine
returns (the deferred receive), i.e. exactly in the `dispatched` and
`running` states. -/
inductive TaskState
  | notDispatched
  | dispatched
  | running
  | aborted
  | completed
deriving DecidableEq

/-- Control position of the orchestrating call itself. -/
inductive Phase
  | loading
  | looping
  | waiting
  | abortedLoad
  | finished
deriving DecidableEq

/-- Store calls made by the orchestrating call (not by the per-source
tasks). -/
inductive BatchEvent
  | setLastArticleUpdate
deriving DecidableEq

/-- Global state of one `FetchAll` invocation: the orchestrator's position,
one lifecycle state per subscription of the loaded snapshot, how many loop
iterations have dispatched, whether the loop is between its cancellation
check and its dispatch, whether the batch context has been cancelled, the
shared progress, and the orchestrator-level Store calls. -/
structure BatchState where
  phase : Phase
  tasks : List TaskState
  dispatchedCount : Nat
  loopChecked : Bool
  cancelled : Bool
  progress : Progress
  events : List BatchEvent
deriving DecidableEq

/-- Number of pool slots currently held: tasks past the semaphore send and
before the deferred receive. -/
def slotsHeld (s : BatchState) : Nat :=
  s.tasks.count .dispatched + s.tasks.count .running

/-- One atomic transition of the `FetchAll` system.

* `cancel` — the batch context gets cancelled (environment action).
* `loadOk` / `loadErr` — outcome of `f.db.GetFeeds()`; on error the running
  flag is cleared and the call returns with nothing dispatched (lines 83-90);
  on success `Total` is set to the snapshot size (lines 92-94).
* `loopObserveCancel` — the per-iteration `select` sees `ctx.Done()` and
  jumps to `Finish` (lines 100-106).
* `loopCheck` — the `select` takes the `default` branch (only possible while
  the context is not cancelled), committing this iteration to dispatch.
* `loopExhausted` — the `range` loop runs out of feeds.
* `dispatch` — `wg.Add(1); sem <- ...; go ...`: blocks unless a pool slot is
  free (lines 108-110).
* `taskAbort` — the goroutine's own `select` sees `ctx.Done()` and returns
  without touching progress, releasing its slot (lines 114-119).
* `taskStart` — the goroutine's `select` takes `default` (context not
  cancelled) and enters `FetchFeed`.
* `taskComplete` — the goroutine returns from `FetchFeed`, increments
  `Current` under the mutex, and releases its slot (lines 121-124).
* `finishBatch` — `wg.Wait()` returns (no task still holds a slot), the
  running flag is cleared, and `last_article_update` is written
  (lines 128-137). -/
inductive Step : BatchState → BatchState → Prop
  | cancel (s : BatchState) :
      Step s { s with cancelled := true }
  | loadOk (s : BatchState) (n : Nat) (h : s.phase = .loading) :
      Step s { s with phase := .looping,
                      tasks := List.replicate n .notDispatched,
                      progress := { s.progress with Total := n } }
  | loadErr (s : BatchState) (h : s.phase = .loading) :
      Step s { s with phase := .abortedLoad,
                      progress := { s.progress with IsRunning := false } }
  | loopObserveCancel (s : BatchState) (h1 : s.phase = .looping)
      (h2 : s.cancelled = true) (h3 : s.loopChecked = false)
      (h4 : s.dispatchedCount < s.tasks.length) :
      Step s { s with phase := .waiting }
  | loopCheck (s : BatchState) (h1 : s.phase = .looping)
      (h2 : s.cancelled = false) (h3 : s.loopChecked = false)
      (h4 : s.dispatchedCount < s.tasks.length) :
      Step s { s with loopChecked := true }
  | loopExhausted (s : BatchState) (h1 : s.phase = .looping)
      (h3 : s.loopChecked = false) (h4 : s.dispatchedCount = s.tasks.length) :
      Step s { s with phase := .waiting }
  | dispatch (s : BatchState) (h1 : s.phase = .looping) (h3 : s.loopChecked = true)
      (h4 : s.dispatchedCount < s.tasks.length) (h5 : slotsHeld s < 5) :
      Step s { s with tasks := s.tasks.set s.dispatchedCount .dispatched,
                      dispatchedCount := s.dispatchedCount + 1,
                      loopChecked := false }
  | taskAbort (s : BatchState) (i : Nat)
      (h : s.tasks[i]? = some .dispatched) (hc : s.cancelled = true) :
      Step s { s with tasks := s.tasks.set i .aborted }
  | taskStart (s : BatchState) (i : Nat)
      (h : s.tasks[i]? = some .dispatched) (hc : s.cancelled = false) :
      Step s { s with tasks := s.tasks.set i .running }
  | taskComplete (s : BatchState) (i : Nat)
      (h : s.tasks[i]? = some .running) :
      Step s { s with tasks := s.tasks.set i .completed,
                      progress := { s.progress with Current := s.progress.Current + 1 } }
  | finishBatch (s : BatchState) (h1 : s.phase = .waiting) (h2 : slotsHeld s = 0) :
      Step s { s with phase := .finished,
                      progress := { s.progress with IsRunning := false },
                      events := s.events ++ [BatchEvent.setLastArticleUpdate] }

/-- Multi-step reachability. -/
def Reaches : BatchState → BatchState → Prop := Relation.ReflTransGen Step

/-- State right after a successful `fetchAllStart`, about to call
`GetFeeds`.  `t` is the stale `Total` left over from the previous batch. -/
def mkInit (t : Nat) : BatchState :=
  { phase := .loading
    tasks := []
    dispatchedCount := 0
    loopChecked := false
    cancelled := false
    progress := { Total := t, Current := 0, IsRunning := true }
    events := [] }

/-- `Fetcher.GetProgress` (lines 55-59): a snapshot of the shared progress
taken under the same mutex that guards every mutation. -/
def GetProgress (s : BatchState) : Progress := s.progress

/-! ## Counting helpers for task lists -/

/-- Updating index `i` (which holds `a`) to `b` exchanges one `a` for one
`b` in the counts. -/
theorem count_set_balance : ∀ (l : List TaskState) (i : Nat) (a b c : TaskState),
    l[i]? = some a →
    (l.set i b).count c + (if a = c then 1 else 0) = l.count c + (if b = c then 1 else 0)
  | [], i, a, b, c, h => by simp at h
  | x :: xs, 0, a, b, c, h => by
    simp only [List.getElem?_cons_zero, Option.some.injEq] at h
    subst h
    simp only [List.set_cons_zero, List.count_cons, beq_iff_eq]
    by_cases hac : x = c <;> by_cases hbc : b = c <;> simp [hac, hbc]
  | x :: xs, i + 1, a, b, c, h => by
    simp only [List.getElem?_cons_succ] at h
    have ih := count_set_balance xs i a b c h
    simp only [List.set_cons_succ, List.count_cons, beq_iff_eq]
    by_cases hxc : x = c <;> simp [hxc] <;> omega

/-- A state present at some index contributes at least one to its count. -/
theorem count_pos_of_get (l : List TaskState) (i : Nat) (a : TaskState)
    (h : l[i]? = some a) : 0 < l.count a := by
  obtain ⟨hlt, hget⟩ := List.getElem?_eq_some.mp h
  exact List.count_pos_iff.mpr (hget ▸ List.getElem_mem hlt)

/-! ## The batch invariant -/

/-- Inductive invariant of the `FetchAll` transition system. -/
structure Inv (s : BatchState) : Prop where
  current_count : s.progress.Current = s.tasks.count .completed
  no_aborted : s.cancelled = false → s.tasks.count .aborted = 0
  disp_le : s.dispatchedCount ≤ s.tasks.length
  undispatched : ∀ i, s.dispatchedCount ≤ i → i < s.tasks.length →
    s.tasks[i]? = some .notDispatched
  nd_count : s.tasks.count .notDispatched = s.tasks.length - s.dispatchedCount
  loading_empty : s.phase = .loading → s.tasks = [] ∧ s.dispatchedCount = 0
  aborted_empty : s.phase = .abortedLoad → s.tasks = []
  full_late : s.cancelled = false → s.phase = .waiting ∨ s.phase = .finished →
    s.dispatchedCount = s.tasks.length
  slots_le : slotsHeld s ≤ 5
  finished_quiet : s.phase = .finished → slotsHeld s = 0
  total_eq : s.phase = .looping ∨ s.phase = .waiting ∨ s.phase = .finished →
    s.progress.Total = s.tasks.length
  running_flag : s.progress.IsRunning = true ↔
    (s.phase = .loading ∨ s.phase = .looping ∨ s.phase = .waiting)
  events_fin : s.phase = .finished → s.events = [BatchEvent.setLastArticleUpdate]
  events_nil : s.phase ≠ .finished → s.events = []

/-- The initial state satisfies the invariant. -/
theorem inv_mkInit (t : Nat) : Inv (mkInit t) := by
  constructor <;> simp [mkInit, slotsHeld]

/-- An index holding anything but `notDispatched` has already been passed by
the dispatch loop. -/
theorem index_lt_disp (s : BatchState) (hi : Inv s) (i : Nat) (a : TaskState)
    (h : s.tasks[i]? = some a) (hnd : a ≠ TaskState.notDispatched) :
    i < s.dispatchedCount := by
  by_contra hge
  have hlt : i < s.tasks.length := (List.getElem?_eq_some.mp h).1
  have hu := hi.undispatched i (Nat.le_of_not_lt hge) hlt
  rw [h] at hu
  exact hnd (Option.some.inj hu)

/-- Updating an already-dispatched index keeps all not-yet-dispatched indices
at `notDispatched`. -/
theorem undispatched_set (s : BatchState) (hi : Inv s) (i : Nat) (a b : TaskState)
    (h : s.tasks[i]? = some a) (hnd : a ≠ TaskState.notDispatched) :
    ∀ j, s.dispatchedCount ≤ j → j < (s.tasks.set i b).length →
      (s.tasks.set i b)[j]? = some TaskState.notDispatched := by
  intro j hj hjl
  have hilt : i < s.dispatchedCount := index_lt_disp s hi i a h hnd
  have hne : i ≠ j := by omega
  rw [List.getElem?_set_ne hne]
  exact hi.undispatched j hj (by simpa using hjl)

/-- The invariant is preserved by every step. -/
theorem inv_step (s b : BatchState) (hi : Inv s) (hst : Step s b) : Inv b := by
  cases hst with
  | cancel =>
    refine ⟨hi.current_count, ?_, hi.disp_le, hi.undispatched, hi.nd_count,
      hi.loading_empty, hi.aborted_empty, ?_, hi.slots_le, hi.finished_quiet,
      hi.total_eq, hi.running_flag, hi.events_fin, hi.events_nil⟩ <;>
      intro h <;> simp at h
  | loadOk n h =>
    obtain ⟨he, hdc⟩ := hi.loading_empty h
    have hc0 : s.progress.Current = 0 := by simpa [he] using hi.current_count
    have hr : s.progress.IsRunning = true := hi.running_flag.mpr (Or.inl h)
    refine ⟨?_, ?_, ?_, ?_, ?_, ?_, ?_, ?_, ?_, ?_, ?_, ?_, ?_, ?_⟩
    · simp [hc0, List.count_replicate]
    · intro _; simp [List.count_replicate]
    · simp [hdc]
    · intro i _ hlt
      simp only [List.length_replicate] at hlt
      simp [List.getElem?_replicate, hlt]
    · simp [hdc]
    · intro h'; simp at h'
    · intro h'; simp at h'
    · intro _ h'; simp at h'
    · simp [slotsHeld, List.count_replicate]
    · intro h'; simp at h'
    · intro _; simp
    · simp [hr]
    · intro h'; simp at h'
    · intro _
      exact hi.events_nil (by simp [h])
  | loadErr h =>
    have he := (hi.loading_empty h).1
    refine ⟨hi.current_count, hi.no_aborted, hi.disp_le, hi.undispatched, hi.nd_count,
      ?_, ?_, ?_, hi.slots_le, ?_, ?_, ?_, ?_, ?_⟩
    · intro h'; simp at h'
    · intro _; exact he
    · intro _ h'; rcases h' with h' | h' <;> simp at h'
    · intro h'; simp at h'
    · intro h'; rcases h' with h' | h' | h' <;> simp at h'
    · simp
    · intro h'; simp at h'
    · intro _
      exact hi.events_nil (by simp [h])
  | loopObserveCancel h1 h2 h3 h4 =>
    refine ⟨hi.current_count, hi.no_aborted, hi.disp_le, hi.undispatched, hi.nd_count,
      ?_, ?_, ?_, hi.slots_le, ?_, ?_, ?_, ?_, ?_⟩
    · intro h'; simp at h'
    · intro h'; simp at h'
    · intro hnc _; rw [hnc] at h2; exact absurd h2 (by simp)
    · intro h'; simp at h'
    · intro _; exact hi.total_eq (Or.inl h1)
    · have hr : s.progress.IsRunning = true := hi.running_flag.mpr (Or.inr (Or.inl h1))
      simp [hr]
    · intro h'; simp at h'
    · intro _; exact hi.events_nil (by simp [h1])
  | loopCheck h1 h2 h3 h4 =>
    refine ⟨hi.current_count, hi.no_aborted, hi.disp_le, hi.undispatched, hi.nd_count,
      ?_, hi.aborted_empty, hi.full_late, hi.slots_le, hi.finished_quiet,
      hi.total_eq, hi.running_flag, hi.events_fin, hi.events_nil⟩
    intro h'; rw [h'] at h1; simp at h1
  | loopExhausted h1 h3 h4 =>
    refine ⟨hi.current_count, hi.no_aborted, hi.disp_le, hi.undispatched, hi.nd_count,
      ?_, ?_, ?_, hi.slots_le, ?_, ?_, ?_, ?_, ?_⟩
    · intro h'; simp at h'
    · intro h'; simp at h'
    · intro _ _; exact h4
    · intro h'; simp at h'
    · intro _; exact hi.total_eq (Or.inl h1)
    · have hr : s.progress.IsRunning = true := hi.running_flag.mpr (Or.inr (Or.inl h1))
      simp [hr]
    · intro h'; simp at h'
    · intro _; exact hi.events_nil (by simp [h1])
  | dispatch h1 h3 h4 h5 =>
    have hnd : s.tasks[s.dispatchedCount]? = some TaskState.notDispatched :=
      hi.undispatched s.dispatchedCount (Nat.le_refl _) h4
    have hbc := count_set_balance s.tasks s.dispatchedCount .notDispatched .dispatched
      TaskState.completed hnd
    have hba := count_set_balance s.tasks s.dispatchedCount .notDispatched .dispatched
      TaskState.aborted hnd
    have hbn := count_set_balance s.tasks s.dispatchedCount .notDispatched .dispatched
      TaskState.notDispatched hnd
    have hbd := count_set_balance s.tasks s.dispatchedCount .notDispatched .dispatched
      TaskState.dispatched hnd
    have hbr := count_set_balance s.tasks s.dispatchedCount .notDispatched .dispatched
      TaskState.running hnd
    simp at hbc hba hbn hbd hbr
    refine ⟨?_, ?_, ?_, ?_, ?_, ?_, ?_, ?_, ?_, ?_, ?_, ?_, ?_, ?_⟩
    · dsimp only
      rw [hi.current_count]
      omega
    · intro hnc
      dsimp only
      have := hi.no_aborted hnc
      omega
    · simpa using h4
    · intro j hj hjl
      dsimp only at hj hjl ⊢
      have hne : s.dispatchedCount ≠ j := by omega
      rw [List.getElem?_set_ne hne]
      exact hi.undispatched j (by omega) (by simpa using hjl)
    · dsimp only
      have := hi.nd_count
      simp only [List.length_set]
      omega
    · intro h'; rw [h'] at h1; simp at h1
    · intro h'; rw [h'] at h1; simp at h1
    · intro _ h'; rcases h' with h' | h' <;> (rw [h'] at h1; simp at h1)
    · dsimp only [slotsHeld]
      have := hi.slots_le
      simp only [slotsHeld] at this h5
      omega
    · intro h'; rw [h'] at h1; simp at h1
    · intro _
      dsimp only
      simp only [List.length_set]
      exact hi.total_eq (Or.inl h1)
    · have hr : s.progress.IsRunning = true := hi.running_flag.mpr (Or.inr (Or.inl h1))
      simp [hr, h1]
    · intro h'; rw [h'] at h1; simp at h1
    · intro _; exact hi.events_nil (by simp [h1])
  | taskAbort i h hc =>
    have hilt := index_lt_disp s hi i TaskState.dispatched h (by simp)
    have hbc := count_set_balance s.tasks i .dispatched .aborted TaskState.completed h
    have hbn := count_set_balance s.tasks i .dispatched .aborted TaskState.notDispatched h
    have hbd := count_set_balance s.tasks i .dispatched .aborted TaskState.dispatched h
    have hbr := count_set_balance s.tasks i .dispatched .aborted TaskState.running h
    simp at hbc hbn hbd hbr
    have hphase : s.phase ≠ Phase.finished := by
      intro hf
      have := hi.finished_quiet hf
      have := count_pos_of_get s.tasks i TaskState.dispatched h
      simp only [slotsHeld] at *
      omega
    have hnotloading : s.phase ≠ Phase.loading := by
      intro hf
      have := (hi.loading_empty hf).1
      rw [this] at h; simp at h
    have hnotaborted : s.phase ≠ Phase.abortedLoad := by
      intro hf
      have := hi.aborted_empty hf
      rw [this] at h; simp at h
    refine ⟨?_, ?_, ?_, undispatched_set s hi i TaskState.dispatched TaskState.aborted h (by simp),
      ?_, ?_, ?_, ?_, ?_, ?_, ?_, ?_, ?_, ?_⟩
    · dsimp only
      rw [hi.current_count]; omega
    · intro hnc; dsimp only at hnc; rw [hnc] at hc; exact absurd hc (by simp)
    · simpa using hi.disp_le
    · dsimp only
      simp only [List.length_set]
      have := hi.nd_count
      omega
    · intro h'; exact absurd h' hnotloading
    · intro h'; exact absurd h' hnotaborted
    · intro hnc hph
      dsimp only
      simp only [List.length_set]
      exact hi.full_late hnc hph
    · dsimp only [slotsHeld]
      have := hi.slots_le
      simp only [slotsHeld] at this
      omega
    · intro h'; exact absurd h' hphase
    · intro hph
      dsimp only
      simp only [List.length_set]
      exact hi.total_eq hph
    · exact hi.running_flag
    · intro h'; exact absurd h' hphase
    · exact hi.events_nil
  | taskStart i h hc =>
    have hilt := index_lt_disp s hi i TaskState.dispatched h (by simp)
    have hbc := count_set_balance s.tasks i .dispatched .running TaskState.completed h
    have hba := count_set_balance s.tasks i .dispatched .running TaskState.aborted h
    have hbn := count_set_balance s.tasks i .dispatched .running TaskState.notDispatched h
    have hbd := count_set_balance s.tasks i .dispatched .running TaskState.dispatched h
    have hbr := count_set_balance s.tasks i .dispatched .running TaskState.running h
    simp at hbc hba hbn hbd hbr
    have hphase : s.phase ≠ Phase.finished := by
      intro hf
      have := hi.finished_quiet hf
      have := count_pos_of_get s.tasks i TaskState.dispatched h
      simp only [slotsHeld] at *
      omega
    have hnotloading : s.phase ≠ Phase.loading := by
      intro hf
      have := (hi.loading_empty hf).1
      rw [this] at h; simp at h
    have hnotaborted : s.phase ≠ Phase.abortedLoad := by
      intro hf
      have := hi.aborted_empty hf
      rw [this] at h; simp at h
    refine ⟨?_, ?_, ?_, undispatched_set s hi i TaskState.dispatched TaskState.running h (by simp),
      ?_, ?_, ?_, ?_, ?_, ?_, ?_, ?_, ?_, ?_⟩
    · dsimp only
      rw [hi.current_count]; omega
    · intro hnc
      dsimp only
      have := hi.no_aborted hnc
      omega
    · simpa using hi.disp_le
    · dsimp only
      simp only [List.length_set]
      have := hi.nd_count
      omega
    · intro h'; exact absurd h' hnotloading
    · intro h'; exact absurd h' hnotaborted
    · intro hnc hph
      dsimp only
      simp only [List.length_set]
      exact hi.full_late hnc hph
    · dsimp only [slotsHeld]
      have := hi.slots_le
      simp only [slotsHeld] at this
      omega
    · intro h'; exact absurd h' hphase
    · intro hph
      dsimp only
      simp only [List.length_set]
      exact hi.total_eq hph
    · exact hi.running_flag
    · intro h'; exact absurd h' hphase
    · exact hi.events_nil
  | taskComplete i h =>
    have hilt := index_lt_disp s hi i TaskState.running h (by simp)
    have hbc := count_set_balance s.tasks i .running .completed TaskState.completed h
    have hba := count_set_balance s.tasks i .running .completed TaskState.aborted h
    have hbn := count_set_balance s.tasks i .running .completed TaskState.notDispatched h
    have hbd := count_set_balance s.tasks i .running .completed TaskState.dispatched h
    have hbr := count_set_balance s.tasks i .running .completed TaskState.running h
    simp at hbc hba hbn hbd hbr
    have hphase : s.phase ≠ Phase.finished := by
      intro hf
      have := hi.finished_quiet hf
      have := count_pos_of_get s.tasks i TaskState.running h
      simp only [slotsHeld] at *
      omega
    have hnotloading : s.phase ≠ Phase.loading := by
      intro hf
      have := (hi.loading_empty hf).1
      rw [this] at h; simp at h
    have hnotaborted : s.phase ≠ Phase.abortedLoad := by
      intro hf
      have := hi.aborted_empty hf
      rw [this] at h; simp at h
    refine ⟨?_, ?_, ?_, undispatched_set s hi i TaskState.running TaskState.completed h (by simp),
      ?_, ?_, ?_, ?_, ?_, ?_, ?_, ?_, ?_, ?_⟩
    · dsimp only
      rw [hi.current_count]
      omega
    · intro hnc
      dsimp only
      have := hi.no_aborted hnc
      omega
    · simpa using hi.disp_le
    · dsimp only
      simp only [List.length_set]
      have := hi.nd_count
      omega
    · intro h'; exact absurd h' hnotloading
    · intro h'; exact absurd h' hnotaborted
    · intro hnc hph
      dsimp only
      simp only [List.length_set]
      exact hi.full_late hnc hph
    · dsimp only [slotsHeld]
      have := hi.slots_le
      simp only [slotsHeld] at this
      omega
    · intro h'; exact absurd h' hphase
    · intro hph
      dsimp only
      simp only [List.length_set]
      exact hi.total_eq hph
    · exact hi.running_flag
    · intro h'; exact absurd h' hphase
    · exact hi.events_nil
  | finishBatch h1 h2 =>
    refine ⟨hi.current_count, hi.no_aborted, hi.disp_le, hi.undispatched, hi.nd_count,
      ?_, ?_, ?_, hi.slots_le, ?_, ?_, ?_, ?_, ?_⟩
    · intro h'; simp at h'
    · intro h'; simp at h'
    · intro hnc _; exact hi.full_late hnc (Or.inl h1)
    · intro _; exact h2
    · intro _; exact hi.total_eq (Or.inr (Or.inl h1))
    · simp
    · intro _
      rw [hi.events_nil (by simp [h1])]
      simp
    · intro h'; simp at h'

/-- Every state reachable from a batch start satisfies the invariant. -/
theorem inv_reaches (t : Nat) (s : BatchState) (h : Reaches (mkInit t) s) : Inv s := by
  induction h with
  | refl => exact inv_mkInit t
  | tail _ hbc ih => exact inv_step _ _ ih hbc

/-- A single step changes `Current` by zero or one (and never decreases
it). -/
theorem step_current (s s' : BatchState) (h : Step s s') :
    (GetProgress s').Current = (GetProgress s).Current ∨
      (GetProgress s').Current = (GetProgress s).Current + 1 := by
  cases h <;> simp [GetProgress]

/-- `Current` is monotone along any execution. -/
theorem reaches_current_le (s s' : BatchState) (h : Reaches s s') :
    (GetProgress s).Current ≤ (GetProgress s').Current := by
  induction h with
  | refl => exact Nat.le_refl _
  | tail _ hbc ih => rcases step_current _ _ hbc with h' | h' <;> omega

/-! ## Concrete executions (used by witnesses) -/

/-- Looping state of a one-subscription batch, nothing dispatched yet. -/
def loopStateOne : BatchState :=
  { phase := .looping
    tasks := [TaskState.notDispatched]
    dispatchedCount := 0
    loopChecked := false
    cancelled := false
    progress := { Total := 1, Current := 0, IsRunning := true }
    events := [] }

/-- Final state of a one-subscription batch that ran to completion. -/
def finStateOne : BatchState :=
  { phase := .finished
    tasks := [TaskState.completed]
    dispatchedCount := 1
    loopChecked := false
    cancelled := false
    progress := { Total := 1, Current := 1, IsRunning := false }
    events := [BatchEvent.setLastArticleUpdate] }

/-- Intermediate states of the one-subscription run. -/
def checkedStateOne : BatchState := { loopStateOne with loopChecked := true }

/-- One task dispatched, holding the only used pool slot. -/
def dispStateOne : BatchState :=
  { loopStateOne with tasks := [TaskState.dispatched], dispatchedCount := 1 }

/-- The task passed its cancellation check and entered `FetchFeed`. -/
def runStateOne : BatchState :=
  { loopStateOne with tasks := [TaskState.running], dispatchedCount := 1 }

/-- The task completed and incremented `Current`. -/
def doneStateOne : BatchState :=
  { phase := .looping
    tasks := [TaskState.completed]
    dispatchedCount := 1
    loopChecked := false
    cancelled := false
    progress := { Total := 1, Current := 1, IsRunning := true }
    events := [] }

/-- The dispatch loop exhausted its snapshot. -/
def waitStateOne : BatchState := { doneStateOne with phase := .waiting }

/-- A complete, uncancelled run over one subscription: load, check, dispatch,
start, complete, exhaust the loop, finish. -/
theorem reaches_finStateOne : Reaches (mkInit 7) finStateOne := by
  have s1 : Step (mkInit 7) loopStateOne := Step.loadOk (mkInit 7) 1 rfl
  have s2 : Step loopStateOne checkedStateOne :=
    Step.loopCheck loopStateOne rfl rfl rfl (by decide)
  have s3 : Step checkedStateOne dispStateOne :=
    Step.dispatch checkedStateOne rfl rfl (by decide) (by decide)
  have s4 : Step dispStateOne runStateOne := Step.taskStart dispStateOne 0 rfl rfl
  have s5 : Step runStateOne doneStateOne := Step.taskComplete runStateOne 0 rfl
  have s6 : Step doneStateOne waitStateOne := Step.loopExhausted doneStateOne rfl rfl rfl
  have s7 : Step waitStateOne finStateOne := Step.finishBatch waitStateOne rfl rfl
  exact Relation.ReflTransGen.head s1 (Relation.ReflTransGen.head s2
    (Relation.ReflTransGen.head s3 (Relation.ReflTransGen.head s4
      (Relation.ReflTransGen.head s5 (Relation.ReflTransGen.head s6
        (Relation.ReflTransGen.single s7))))))

/-- State of a batch whose initial `GetFeeds` load failed. -/
def abortStateFive : BatchState :=
  { phase := .abortedLoad
    tasks := []
    dispatchedCount := 0
    loopChecked := false
    cancelled := false
    progress := { Total := 5, Current := 0, IsRunning := false }
    events := [] }

/-- The load-failure path is reachable in one step. -/
theorem reaches_abortStateFive : Reaches (mkInit 5) abortStateFive :=
  Relation.ReflTransGen.single (Step.loadErr (mkInit 5) rfl)

/-! ## The claims -/

/-- C1: in any batch in which the cancellation context is never cancelled,
when `FetchAll` reaches its final state the completed counter
(`Progress.Current`) equals the number of subscriptions in the snapshot
(which is also `Progress.Total`), regardless of how individual `FetchFeed`
calls fared: every task increments the counter exactly once on completion. -/
theorem fetchAll_completes_all_without_cancellation (t : Nat) (s : BatchState)
    (hr : Reaches (mkInit t) s) (hnc : s.cancelled = false)
    (hf : s.phase = Phase.finished) :
    s.progress.Current = s.tasks.length ∧ s.progress.Current = s.progress.Total := by
  have hi := inv_reaches t s hr
  have hq := hi.finished_quiet hf
  simp only [slotsHeld] at hq
  have hab := hi.no_aborted hnc
  have hfull := hi.full_late hnc (Or.inr hf)
  have hnd : s.tasks.count .notDispatched = 0 := by
    rw [hi.nd_count, hfull]
    omega
  have hall : ∀ x ∈ s.tasks, TaskState.completed = x := by
    intro x hx
    cases x with
    | notDispatched => exact absurd (List.count_pos_iff.mpr hx) (by omega)
    | dispatched => exact absurd (List.count_pos_iff.mpr hx) (by omega)
    | running => exact absurd (List.count_pos_iff.mpr hx) (by omega)
    | aborted => exact absurd (List.count_pos_iff.mpr hx) (by omega)
    | completed => rfl
  have hcount : s.tasks.count .completed = s.tasks.length :=
    List.count_eq_length.mpr hall
  constructor
  · rw [hi.current_count, hcount]
  · rw [hi.current_count, hcount, hi.total_eq (Or.inr (Or.inr hf))]

/-- C1 witness: the one-subscription run finishes with `Current = 1 = Total`. -/
theorem fetchAll_completes_all_without_cancellation_witness :
    finStateOne.progress.Current = finStateOne.tasks.length ∧
      finStateOne.progress.Current = finStateOne.progress.Total :=
  fetchAll_completes_all_without_cancellation 7 finStateOne reaches_finStateOne rfl rfl

/-- C2: in every reachable state of a batch, at most 5 tasks are between
pool-slot acquisition and release, and when the batch finishes every slot has
been released (tasks on the failure and cancellation paths release theirs
too). -/
theorem fetchAll_pool_bounded (t : Nat) (s : BatchState)
    (hr : Reaches (mkInit t) s) :
    slotsHeld s ≤ 5 ∧ (s.phase = Phase.finished → slotsHeld s = 0) :=
  ⟨(inv_reaches t s hr).slots_le, (inv_reaches t s hr).finished_quiet⟩

/-- C2 witness: the bound evaluated on the completed one-subscription run. -/
theorem fetchAll_pool_bounded_witness :
    slotsHeld finStateOne ≤ 5 ∧ (finStateOne.phase = Phase.finished → slotsHeld finStateOne = 0) :=
  fetchAll_pool_bounded 7 finStateOne reaches_finStateOne

/-- C3: calling `FetchAll` while a batch is running is a silent no-op — the
progress triple is returned unchanged and no batch starts — and because the
check and the flag-set are one atomic section under `f.mu`, a second
invocation observing the state left by a first can never start again. -/
theorem fetchAll_noop_when_running (p : Progress) (h : p.IsRunning = true) :
    fetchAllStart p = (p, false) ∧
      ∀ q : Progress, (fetchAllStart (fetchAllStart q).1).2 = false := by
  constructor
  · simp [fetchAllStart, h]
  · intro q
    by_cases hq : q.IsRunning = true <;> simp [fetchAllStart, hq]

/-- C3 witness: a running progress state is returned untouched. -/
theorem fetchAll_noop_when_running_witness :
    fetchAllStart { Total := 3, Current := 1, IsRunning := true } =
      ({ Total := 3, Current := 1, IsRunning := true }, false) :=
  (fetchAll_noop_when_running { Total := 3, Current := 1, IsRunning := true } rfl).1

/-- C8 counterexample: when the initial subscription-list load fails,
`FetchAll` exits the running state (the flag is cleared) but records no
"last batch completed at" timestamp — refuting the claim that the timestamp
is recorded on every exit from `Running`. -/
theorem fetchAll_loadfail_records_no_timestamp :
    Reaches (mkInit 5) abortStateFive ∧
      abortStateFive.progress.IsRunning = false ∧
      BatchEvent.setLastArticleUpdate ∉ abortStateFive.events :=
  ⟨reaches_abortStateFive, rfl, by simp [abortStateFive]⟩

/-- C8 (amended): whenever `FetchAll` leaves the running state it clears the
running flag; on normal completion or cancellation it also records the
`last_article_update` timestamp, but on the load-failure abort path it
records nothing. -/
theorem fetchAll_exit_behavior (t : Nat) (s : BatchState)
    (hr : Reaches (mkInit t) s) :
    (s.progress.IsRunning = false →
      s.phase = Phase.finished ∨ s.phase = Phase.abortedLoad) ∧
    (s.phase = Phase.finished →
      s.progress.IsRunning = false ∧ s.events = [BatchEvent.setLastArticleUpdate]) ∧
    (s.phase = Phase.abortedLoad →
      s.progress.IsRunning = false ∧ s.events = []) := by
  have hi := inv_reaches t s hr
  have hnot : ∀ hph, s.progress.IsRunning = true → s.phase = hph →
      hph = Phase.loading ∨ hph = Phase.looping ∨ hph = Phase.waiting := by
    intro hph hrun hphe
    have := hi.running_flag.mp hrun
    rw [hphe] at this
    exact this
  refine ⟨?_, ?_, ?_⟩
  · intro hf
    cases hph : s.phase with
    | loading =>
      have := hi.running_flag.mpr (Or.inl hph)
      rw [hf] at this
      exact absurd this (by simp)
    | looping =>
      have := hi.running_flag.mpr (Or.inr (Or.inl hph))
      rw [hf] at this
      exact absurd this (by simp)
    | waiting =>
      have := hi.running_flag.mpr (Or.inr (Or.inr hph))
      rw [hf] at this
      exact absurd this (by simp)
    | abortedLoad => exact Or.inr rfl
    | finished => exact Or.inl rfl
  · intro hf
    refine ⟨?_, hi.events_fin hf⟩
    cases hrun : s.progress.IsRunning with
    | false => rfl
    | true =>
      rcases hi.running_flag.mp hrun with h' | h' | h' <;> rw [hf] at h' <;> simp at h'
  · intro hf
    refine ⟨?_, hi.events_nil (by simp [hf])⟩
    cases hrun : s.progress.IsRunning with
    | false => rfl
    | true =>
      rcases hi.running_flag.mp hrun with h' | h' | h' <;> rw [hf] at h' <;> simp at h'

/-- C8 witness: on the completed one-subscription run, the flag is cleared
and the timestamp recorded. -/
theorem fetchAll_exit_behavior_witness :
    finStateOne.progress.IsRunning = false ∧
      finStateOne.events = [BatchEvent.setLastArticleUpdate] :=
  (fetchAll_exit_behavior 7 finStateOne reaches_finStateOne).2.1 rfl

/-- C9: within a batch the completed counter only ever increases — one
atomic step changes the `GetProgress` snapshot's `Current` by exactly 0 or
+1 (each task's update adds exactly 1), and along any execution `Current` is
monotone.  Every mutation and the `GetProgress` read are single atomic
actions under the one shared lock, so snapshots are never torn. -/
theorem progress_current_monotone (s s' : BatchState) :
    (Step s s' →
      (GetProgress s').Current = (GetProgress s).Current ∨
        (GetProgress s').Current = (GetProgress s).Current + 1) ∧
    (Reaches s s' → (GetProgress s).Current ≤ (GetProgress s').Current) :=
  ⟨step_current s s', reaches_current_le s s'⟩

/-- C9 witness: one concrete completion step raises `Current` from 0 to 1. -/
theorem progress_current_monotone_witness :
    (GetProgress doneStateOne).Current = (GetProgress runStateOne).Current ∨
      (GetProgress doneStateOne).Current = (GetProgress runStateOne).Current + 1 :=
  (progress_current_monotone runStateOne doneStateOne).1
    (Step.taskComplete runStateOne 0 rfl)

/-- C7: cancellation checkpoints.  In a reachable batch state, (a) a task
whose pre-work check can observe cancellation never enters `FetchFeed`
(no step takes a dispatched task to running while the context is
cancelled), (b) a task that returned at a cancellation check stays returned —
it performs no later transition or side effect, and (c) inside `FetchFeed`,
when the pre-persistence check observes cancellation, no bulk article save is
issued. -/
theorem cancellation_checkpoints (t : Nat) (s s' : BatchState) (i : Nat)
    (env : FetchEnv) (feed : Feed) (hre : Reaches (mkInit t) s) :
    (Step s s' → s.cancelled = true → s.tasks[i]? = some TaskState.dispatched →
      s'.tasks[i]? ≠ some TaskState.running) ∧
    (Step s s' → s.tasks[i]? = some TaskState.aborted →
      s'.tasks[i]? = some TaskState.aborted) ∧
    (env.cancelledPreSave = true →
      ∀ arts, DBEvent.saveArticles arts ∉ FetchFeed env feed) := by
  have hi := inv_reaches t s hre
  refine ⟨?_, ?_, ?_⟩
  · intro hst hc h
    cases hst with
    | cancel => dsimp only; rw [h]; simp
    | loadOk n hph =>
      rw [(hi.loading_empty hph).1] at h
      simp at h
    | loadErr hph =>
      rw [(hi.loading_empty hph).1] at h
      simp at h
    | loopObserveCancel h1 h2 h3 h4 => dsimp only; rw [h]; simp
    | loopCheck h1 h2 h3 h4 => dsimp only; rw [h]; simp
    | loopExhausted h1 h3 h4 => dsimp only; rw [h]; simp
    | dispatch h1 h3 h4 h5 =>
      dsimp only
      rcases eq_or_ne s.dispatchedCount i with he | hne
      · have hnd := hi.undispatched s.dispatchedCount (Nat.le_refl _) h4
        rw [he, h] at hnd
        simp at hnd
      · rw [List.getElem?_set_ne hne, h]
        simp
    | taskAbort j hj hcj =>
      dsimp only
      rcases eq_or_ne j i with he | hne
      · subst he
        rw [List.getElem?_set_self ((List.getElem?_eq_some.mp hj).1)]
        simp
      · rw [List.getElem?_set_ne hne, h]
        simp
    | taskStart j hj hcj => rw [hcj] at hc; exact absurd hc (by simp)
    | taskComplete j hj =>
      dsimp only
      rcases eq_or_ne j i with he | hne
      · subst he
        rw [h] at hj
        simp at hj
      · rw [List.getElem?_set_ne hne, h]
        simp
    | finishBatch h1 h2 => dsimp only; rw [h]; simp
  · intro hst h
    cases hst with
    | cancel => exact h
    | loadOk n hph =>
      rw [(hi.loading_empty hph).1] at h
      simp at h
    | loadErr hph =>
      rw [(hi.loading_empty hph).1] at h
      simp at h
    | loopObserveCancel h1 h2 h3 h4 => exact h
    | loopCheck h1 h2 h3 h4 => exact h
    | loopExhausted h1 h3 h4 => exact h
    | dispatch h1 h3 h4 h5 =>
      dsimp only
      have hnd := hi.undispatched s.dispatchedCount (Nat.le_refl _) h4
      have hne : s.dispatchedCount ≠ i := by
        intro he
        rw [he, h] at hnd
        simp at hnd
      rw [List.getElem?_set_ne hne]
      exact h
    | taskAbort j hj hcj =>
      dsimp only
      have hne : j ≠ i := by
        intro he
        rw [he, h] at hj
        simp at hj
      rw [List.getElem?_set_ne hne]
      exact h
    | taskStart j hj hcj =>
      dsimp only
      have hne : j ≠ i := by
        intro he
        rw [he, h] at hj
        simp at hj
      rw [List.getElem?_set_ne hne]
      exact h
    | taskComplete j hj =>
      dsimp only
      have hne : j ≠ i := by
        intro he
        rw [he, h] at hj
        simp at hj
      rw [List.getElem?_set_ne hne]
      exact h
    | finishBatch h1 h2 => exact h
  · intro hcps arts
    cases hres : resolveSource env feed with
    | error msg => simp [FetchFeed, hres]
    | ok pf =>
      simp only [FetchFeed, hres, hcps, if_pos, List.append_nil]
      simp only [List.mem_append, List.mem_singleton, not_or]
      refine ⟨⟨by simp, ?_⟩, ?_⟩
      · cases pf.image with
        | none => simp
        | some img =>
          by_cases himg : feed.imageURL = "" <;> simp [himg]
      · by_cases hlink : feed.link = "" ∧ pf.link ≠ "" <;> simp [hlink]

/-- An item for the C7 witness feed document. -/
def itemC7 : Item :=
  { title := "a"
    link := "u"
    content := "c"
    description := ""
    image := none
    enclosures := []
    publishedParsed := some 4 }

/-- The parsed document the C7 witness URL fetch returns. -/
def parsedC7 : ParsedFeed :=
  { title := "t"
    link := "http://l"
    description := ""
    image := none
    items := [itemC7] }

/-- C7 environment for the witness: cancellation observed at the pre-save
check. -/
def envC7 : FetchEnv :=
  { executorPresent := true
    scriptResult := Except.error "s"
    urlResult := Except.ok parsedC7
    translationEnabledSetting := "false"
    targetLang := "en"
    translatorPresent := true
    translate := fun _ _ => Except.ok "x"
    now := 11
    cancelledPreSave := true
    saveResult := Except.ok ()
    recentArticles := Except.ok [] }

/-- C7 witness feed. -/
def feedC7 : Feed :=
  { id := 2, title := "F", url := "http://u", link := "", imageURL := "", scriptPath := "" }

/-- C7 witness: with cancellation observed at the pre-save check, the
concrete `FetchFeed` run issues no bulk save. -/
theorem cancellation_checkpoints_witness :
    DBEvent.saveArticles [] ∉ FetchFeed envC7 feedC7 :=
  (cancellation_checkpoints 0 (mkInit 0) (mkInit 0) 0 envC7 feedC7
    Relation.ReflTransGen.refl).2.2 (by rfl) []

/-- C10: when source resolution fails — missing script executor, script
execution error, or URL fetch/parse error — `FetchFeed`'s only Store call is
recording the error message on that subscription: no cached image or link
update, no article save, no re-query, no rule application. -/
theorem fetchFeed_failure_frame (env : FetchEnv) (feed : Feed) (msg : String)
    (h : resolveSource env feed = Except.error msg) :
    FetchFeed env feed = [DBEvent.updateFeedError feed.id msg] := by
  simp [FetchFeed, h]

/-- C10 witness environment: the URL fetch fails. -/
def envC10 : FetchEnv :=
  { envC7 with urlResult := Except.error "boom", cancelledPreSave := false }

/-- C10 witness: the failing concrete fetch records the error and nothing
else. -/
theorem fetchFeed_failure_frame_witness :
    FetchFeed envC10 feedC7 = [DBEvent.updateFeedError 2 "boom"] :=
  fetchFeed_failure_frame envC10 feedC7 "boom" (by rfl)

/-- C6: a script that exits nonzero makes `ExecuteScript` fail with a
`script execution failed` error whose message carries the captured stderr
verbatim (when non-empty); `FetchFeed` records exactly that message on the
subscription via the Store; and a later successful fetch of the same
subscription starts by clearing the error field (recording the empty
string). -/
theorem script_error_recorded_and_cleared (isWin : Bool) (dir p em se : String)
    (parse : String → Except String ParsedFeed) (env env' : FetchEnv) (feed : Feed)
    (hacc : scriptPathAccepted dir p = true)
    (hsh : ¬(extLower (filepathClean (filepathJoin dir p)) = ".sh" ∧ isWin = true))
    (hse : se ≠ "")
    (hsp : feed.scriptPath ≠ "")
    (hexec : env.executorPresent = true)
    (henv : env.scriptResult =
      ExecuteScript isWin dir p (ScriptOutcome.fail em se) parse)
    (hexec' : env'.executorPresent = true)
    (pf : ParsedFeed) (hok : env'.scriptResult = Except.ok pf) :
    (env.scriptResult =
      Except.error (("script execution failed: " ++ em ++ ", stderr: ") ++ se) ∧
      FetchFeed env feed =
        [DBEvent.updateFeedError feed.id
          (("script execution failed: " ++ em ++ ", stderr: ") ++ se)]) ∧
    (FetchFeed env' feed).head? = some (DBEvent.updateFeedError feed.id "") := by
  have hmsg : env.scriptResult =
      Except.error (("script execution failed: " ++ em ++ ", stderr: ") ++ se) := by
    rw [henv]
    simp [ExecuteScript, ExecuteScriptFull, hacc, hsh, hse]
  refine ⟨⟨hmsg, ?_⟩, ?_⟩
  · have hres : resolveSource env feed =
        Except.error (("script execution failed: " ++ em ++ ", stderr: ") ++ se) := by
      simp [resolveSource, hsp, hexec, hmsg]
    simp [FetchFeed, hres]
  · have hres' : resolveSource env' feed = Except.ok pf := by
      simp [resolveSource, hsp, hexec', hok]
    simp [FetchFeed, hres']

/-- Parse collaborator for the C6 witness (never reached on the failure
path). -/
def parseC6 : String → Except String ParsedFeed := fun _ => Except.error "unused"

/-- The parsed document for the C6 witness success path. -/
def parsedC6 : ParsedFeed :=
  { title := "t"
    link := ""
    description := ""
    image := none
    items := [] }

/-- C6 witness environment: the script run exits nonzero with stderr. -/
def envC6 : FetchEnv :=
  { executorPresent := true
    scriptResult := ExecuteScript false "/data/scripts" "feed.py"
      (ScriptOutcome.fail "exit status 1" "bad input") parseC6
    urlResult := Except.error "unused"
    translationEnabledSetting := "false"
    targetLang := "en"
    translatorPresent := true
    translate := fun _ _ => Except.ok "x"
    now := 0
    cancelledPreSave := false
    saveResult := Except.ok ()
    recentArticles := Except.ok [] }

/-- C6 environment for the subsequent successful fetch. -/
def envC6' : FetchEnv := { envC6 with scriptResult := Except.ok parsedC6 }

/-- C6 witness feed: fetched through a script. -/
def feedC6 : Feed :=
  { id := 9, title := "S", url := "script://feed.py", link := "", imageURL := "",
    scriptPath := "feed.py" }

/-- C6 witness: at the concrete inputs, the nonzero-exit script run records
the stderr-carrying message, and the subsequent successful fetch clears the
error field first. -/
theorem script_error_recorded_and_cleared_witness :
    (envC6.scriptResult =
      Except.error (("script execution failed: " ++ "exit status 1" ++ ", stderr: ") ++ "bad input") ∧
      FetchFeed envC6 feedC6 =
        [DBEvent.updateFeedError feedC6.id
          (("script execution failed: " ++ "exit status 1" ++ ", stderr: ") ++ "bad input")]) ∧
    (FetchFeed envC6' feedC6).head? = some (DBEvent.updateFeedError feedC6.id "") :=
  script_error_recorded_and_cleared false "/data/scripts" "feed.py" "exit status 1"
    "bad input" parseC6 envC6 envC6' feedC6 (by decide) (by decide) (by decide)
    (by decide) rfl rfl rfl parsedC6 rfl

/-- C4: the containment check in `ExecuteScript` is a plain string-prefix
test against the cleaned root, with no separator appended, so a sibling
directory whose name extends the root's name passes the check: the script
path `../scripts-evil/x.sh` resolves to `/data/scripts-evil/x.sh`, outside
the root `/data/scripts`, yet is accepted and a process is spawned for it.
The spec's own example `../../etc/passwd` is rejected, but the claim is
false for paths of this shape. -/
theorem script_path_check_bypassed :
    resolvesInsideRoot "/data/scripts" "../scripts-evil/x.sh" = false ∧
    scriptPathAccepted "/data/scripts" "../scripts-evil/x.sh" = true ∧
    (ExecuteScriptFull false "/data/scripts" "../scripts-evil/x.sh"
      (ScriptOutcome.ok "") parseC6).1 = true ∧
    scriptPathAccepted "/data/scripts" "../../etc/passwd" = false := by
  refine ⟨by decide, by decide, ?_, by decide⟩
  simp [ExecuteScriptFull, show scriptPathAccepted "/data/scripts" "../scripts-evil/x.sh" = true
    from by decide, show extLower (filepathClean (filepathJoin "/data/scripts" "../scripts-evil/x.sh")) = ".sh"
    from by decide]

/-- C5 counterexample item: no structured image, a first enclosure of image
MIME type `image/png`, empty content and description. -/
def itemC5 : Item :=
  { title := "t"
    link := "u"
    content := ""
    description := ""
    image := none
    enclosures := [{ url := "http://x/e.png", type := "image/png" }]
    publishedParsed := none }

/-- C5 counterexample: the spec's resolution order picks the first
image-MIME enclosure (`http://x/e.png`), but the code only honours a first
enclosure whose type is exactly `image/jpeg`, so it resolves the image to
the empty string.  The claim's predicted output differs from the code's. -/
theorem image_order_spec_cex :
    specImageOrder itemC5 = "http://x/e.png" ∧ codeImageURL itemC5 = "" ∧
      codeImageURL itemC5 ≠ specImageOrder itemC5 := by
  refine ⟨by decide, by decide, by decide⟩

/-- C5 (amended): the image URL is resolved as (1) the structured image
field's URL when the field is present; (2) otherwise the first enclosure's
URL when that enclosure's declared type is exactly `image/jpeg`; (3)
whenever the URL chosen so far is empty, the first `<img src>` regex
occurrence in the content, falling back to the description when the content
is empty; (4) the empty string otherwise. -/
theorem image_order_amended (item : Item) :
    codeImageURL item = specImageOrderAmended item := by
  have hopt : ∀ o : Option String,
      (match o with | some u => u | none => "") = o.getD "" := by
    intro o
    cases o <;> rfl
  unfold codeImageURL specImageOrderAmended firstEnclosureImage
  cases himg : item.image with
  | some img => simp [Option.orElse, hopt]
  | none =>
    cases henc : item.enclosures with
    | nil => simp [Option.orElse, hopt]
    | cons e rest =>
      by_cases hty : e.type = "image/jpeg" <;> simp [Option.orElse, hty, hopt]

end MrRSS
